import Mathlib

/-!
Verification of `src/call-script.mjs` (GeoffreyHuck/debuggers).

The file shallowly embeds the three pure parts of the program:

* the sentinel-delimited result extractor (the `onData` listener registered on
  the duplicated output stream, `src/call-script.mjs:26-41`), modelled as a
  state machine over `List Char` chunks;
* the path helpers used by the command assembler (`path.extname`,
  `path.dirname`, `path.resolve` from Node's posix `path` module, which the
  source calls), modelled from their documented posix behaviour;
* the runtime table, mount planning and docker argument assembly
  (`dockerRunConfigs`, `paths`, `mountsPerImage`, `toDockerMountArgs`,
  `dockerRunCommand`, and the extension dispatch of `callScript`,
  `src/call-script.mjs:13-18` and `61-149`).

`process.cwd()` (the source's `paths.selfRoot`) is an ambient value; it is
modelled as an explicit `selfRoot` parameter threaded through the definitions
that read it.  The effectful parts of `callScript` (promise wiring,
`cp.spawnSync`) are not modelled; `callScript` here returns either the
unknown-extension error message or the assembled launch plan, which is the
data the effectful code consumes.
-/

/-! ## Result extractor (src/call-script.mjs:26-41) -/

/-- The literal `begin` sentinel of `callScript` (`const begin = 'RESULT_BEGIN'`). -/
def beginSentinel : List Char := "RESULT_BEGIN".toList

/-- The literal `end` sentinel of `callScript` (`const end = 'RESULT_END'`). -/
def endSentinel : List Char := "RESULT_END".toList

/-- JS `s.includes(pat)`: does `pat` occur as a contiguous substring of `s`? -/
def includes (s pat : List Char) : Bool :=
  match s with
  | [] => pat.isEmpty
  | _ :: t => pat.isPrefixOf s || includes t pat

/-- JS `s.indexOf(pat)`: index of the first occurrence of `pat` in `s`
(meaningful under `includes s pat = true`, the only way the source uses it). -/
def idxOf (pat : List Char) : List Char → Nat
  | [] => 0
  | c :: rest => if pat.isPrefixOf (c :: rest) then 0 else idxOf pat rest + 1

/-- JS `String.prototype.trim` restricted to ASCII whitespace: strip leading and
trailing whitespace characters. -/
def trimChars (l : List Char) : List Char :=
  ((l.dropWhile Char.isWhitespace).reverse.dropWhile Char.isWhitespace).reverse

/-- `message.slice(message.indexOf(begin) + begin.length)`: the part of a chunk
strictly after the first occurrence of the begin sentinel
(src/call-script.mjs:32). -/
def afterBegin (m : List Char) : List Char :=
  m.drop (idxOf beginSentinel m + beginSentinel.length)

/-- The part of a chunk strictly between the first begin sentinel and the first
end sentinel after it: what `onData` passes to `resolve` when both sentinels
are found in one chunk starting from an empty buffer. -/
def betweenSentinels (m : List Char) : List Char :=
  (afterBegin m).take (idxOf endSentinel (afterBegin m))

/-- State of the extractor: the accumulation buffer `raw` and, once `resolve`
has been called (after which the listener is removed with
`process.stdout.off`), the resolved payload. -/
structure ExtractorState where
  raw : List Char
  resolved : Option (List Char)
deriving DecidableEq

/-- The extractor's initial state: `let raw = ''`, promise pending. -/
def initState : ExtractorState := { raw := [], resolved := none }

/-- One firing of the `onData` listener (src/call-script.mjs:29-40).  Once the
promise is resolved the listener has been removed (`off`), so further chunks
leave the state unchanged.  Otherwise, transliterating the source:

    let message = data.toString('utf-8')
    if (message.includes(begin)) {
      message = message.slice(message.indexOf(begin) + begin.length)
      if (!message.includes(end)) raw += message
    }
    if (message.includes(end)) {
      message = message.slice(0, message.indexOf(end))
      resolve((raw + message).trim())
      process.stdout.off('data', onData)
    }
-/
def onData (st : ExtractorState) (chunk : List Char) : ExtractorState :=
  if st.resolved.isSome then st
  else
    let message := if includes chunk beginSentinel then afterBegin chunk else chunk
    let raw1 :=
      if includes chunk beginSentinel && !includes message endSentinel
      then st.raw ++ message else st.raw
    if includes message endSentinel then
      { raw := raw1,
        resolved := some (trimChars (raw1 ++ message.take (idxOf endSentinel message))) }
    else
      { raw := raw1, resolved := none }

/-- Feeding a whole sequence of chunks to the extractor, starting from the
initial state. -/
def runChunks (chunks : List (List Char)) : ExtractorState :=
  chunks.foldl onData initState

/-! ### Extractor lemmas -/

/-- Once the promise is resolved the listener is off: `onData` is inert. -/
lemma onData_of_resolved (st : ExtractorState) (c : List Char)
    (h : st.resolved.isSome = true) : onData st c = st := by
  simp [onData, h]

/-- A resolved payload is final: later chunks cannot change it. -/
lemma foldl_resolved (cs : List (List Char)) (st : ExtractorState) (v : List Char)
    (h : st.resolved = some v) : (cs.foldl onData st).resolved = some v := by
  induction cs generalizing st with
  | nil => simpa using h
  | cons c cs ih =>
    rw [List.foldl_cons, onData_of_resolved st c (by simp [h])]
    exact ih st h

/-- A chunk containing neither sentinel leaves an unresolved extractor state
completely unchanged. -/
lemma onData_noise (st : ExtractorState) (c : List Char)
    (h0 : st.resolved = none)
    (hb : includes c beginSentinel = false)
    (he : includes c endSentinel = false) : onData st c = st := by
  cases st with
  | mk raw resolved =>
    cases h0
    simp [onData, hb, he]

/-- A whole prefix of sentinel-free chunks leaves an unresolved state unchanged. -/
lemma foldl_noise (cs : List (List Char)) (st : ExtractorState)
    (h0 : st.resolved = none)
    (h : ∀ c ∈ cs, includes c beginSentinel = false ∧ includes c endSentinel = false) :
    cs.foldl onData st = st := by
  induction cs with
  | nil => rfl
  | cons c cs ih =>
    rw [List.foldl_cons,
      onData_noise st c h0 (h c (List.mem_cons_self c cs)).1 (h c (List.mem_cons_self c cs)).2]
    exact ih fun x hx => h x (List.mem_cons_of_mem c hx)

/-- If a pattern occurs in `l.drop n`, it occurs in `l`. -/
lemma includes_of_includes_drop (pat l : List Char) (n : Nat)
    (h : includes (l.drop n) pat = true) : includes l pat = true := by
  induction l generalizing n with
  | nil => simpa [List.drop_nil] using h
  | cons c t ih =>
    cases n with
    | zero => simpa using h
    | succ n =>
      rw [List.drop_succ_cons] at h
      have := ih n h
      simp [includes, this]

/-- A chunk without the end sentinel can never resolve the promise. -/
lemma onData_noEnd (st : ExtractorState) (c : List Char)
    (h0 : st.resolved = none)
    (he : includes c endSentinel = false) : (onData st c).resolved = none := by
  have h0' : st.resolved.isSome = false := by simp [h0]
  by_cases hb : includes c beginSentinel = true
  · have hem : includes (afterBegin c) endSentinel = false := by
      cases hcc : includes (afterBegin c) endSentinel
      · rfl
      · exact absurd (includes_of_includes_drop endSentinel c _ hcc) (by simp [he])
    simp [onData, h0', hb, hem]
  · have hb' : includes c beginSentinel = false := by simpa using hb
    simp [onData, h0', hb', he]

/-! ### Claim theorems about the extractor -/

/-- C1: the claim says that once the begin sentinel has been seen, every later
chunk containing neither sentinel is appended in full, so that the chunk
sequence `["RESULT_BEGIN", "partial-data-", "more-data", "RESULT_END"]`
resolves to `"partial-data-more-data"`.  The code does not do this: `raw +=`
only runs inside the `message.includes(begin)` branch
(src/call-script.mjs:31-34), so a chunk containing neither sentinel is dropped
even after the begin sentinel was seen.  Evaluating the embedded listener on
the claim's own chunk sequence, the extractor resolves to the empty string,
not to `"partial-data-more-data"`. -/
theorem C1_middle_chunks_dropped :
    (runChunks (["RESULT_BEGIN", "partial-data-", "more-data", "RESULT_END"].map
      String.toList)).resolved = some "".toList ∧
    (runChunks (["RESULT_BEGIN", "partial-data-", "more-data", "RESULT_END"].map
      String.toList)).resolved ≠ some "partial-data-more-data".toList := by
  constructor
  · decide
  · decide

/-- C2 (counterexample to the claim as stated): a chunk that arrives before any
begin sentinel and does not contain the begin sentinel is NOT always ignored —
if it contains the end sentinel, `onData` resolves the promise with whatever
precedes the end sentinel (src/call-script.mjs:35-39).  Processing
`"oops RESULT_END"` from the initial state resolves to `"oops"`. -/
theorem C2_end_before_begin_resolves :
    (onData initState ("oops RESULT_END".toList)).resolved = some "oops".toList := by
  decide

/-- C2 (amended): a chunk that contains neither the begin sentinel nor the end
sentinel leaves any unresolved extractor state unchanged — it contributes
nothing to the payload and does not cause resolution. -/
theorem C2_nonsentinel_chunk_ignored (st : ExtractorState) (c : List Char)
    (h0 : st.resolved = none)
    (hb : includes c beginSentinel = false)
    (he : includes c endSentinel = false) : onData st c = st :=
  onData_noise st c h0 hb he

/-- Witness for `C2_nonsentinel_chunk_ignored` at the concrete chunk
`"chatter"` from the initial state. -/
theorem C2_nonsentinel_chunk_ignored_witness :
    (initState.resolved = none ∧
      includes "chatter".toList beginSentinel = false ∧
      includes "chatter".toList endSentinel = false) ∧
    onData initState "chatter".toList = initState :=
  ⟨⟨by decide, by decide, by decide⟩,
    C2_nonsentinel_chunk_ignored initState "chatter".toList (by decide) (by decide) (by decide)⟩

/-- C5: if every chunk that arrives before the begin sentinel contains neither
sentinel, and then one chunk contains the begin sentinel followed by the end
sentinel, the extractor resolves at that chunk to the whitespace-trimmed
substring strictly between the two sentinels of that chunk, nothing from the
earlier chunks leaks in, and the resolved value is final no matter what
arrives afterwards (resolution happens exactly once). -/
theorem C5_both_sentinels_one_chunk (prior rest : List (List Char)) (chunk : List Char)
    (hprior : ∀ c ∈ prior,
      includes c beginSentinel = false ∧ includes c endSentinel = false)
    (hb : includes chunk beginSentinel = true)
    (he : includes (afterBegin chunk) endSentinel = true) :
    (runChunks (prior ++ chunk :: rest)).resolved =
      some (trimChars (betweenSentinels chunk)) := by
  unfold runChunks
  rw [List.foldl_append, foldl_noise prior initState rfl hprior, List.foldl_cons]
  have h1 : onData initState chunk =
      { raw := [], resolved := some (trimChars (betweenSentinels chunk)) } := by
    simp [onData, initState, hb, he, betweenSentinels]
  rw [h1]
  exact foldl_resolved rest _ _ rfl

/-- Witness for `C5_both_sentinels_one_chunk` on the spec's chunk sequence
`["noise ", "RESULT_BEGIN{"a":1}RESULT_END trailing"]` (braces written as
escapes): it resolves to `{"a":1}`. -/
theorem C5_both_sentinels_one_chunk_witness :
    ((∀ c ∈ ["noise ".toList],
        includes c beginSentinel = false ∧ includes c endSentinel = false) ∧
      includes "RESULT_BEGIN\x7b\"a\":1\x7dRESULT_END trailing".toList beginSentinel = true ∧
      includes (afterBegin "RESULT_BEGIN\x7b\"a\":1\x7dRESULT_END trailing".toList)
        endSentinel = true) ∧
    (runChunks (["noise ".toList] ++
      "RESULT_BEGIN\x7b\"a\":1\x7dRESULT_END trailing".toList :: [])).resolved =
      some "\x7b\"a\":1\x7d".toList :=
  ⟨⟨by decide, by decide, by decide⟩,
    (C5_both_sentinels_one_chunk ["noise ".toList] []
      "RESULT_BEGIN\x7b\"a\":1\x7dRESULT_END trailing".toList
      (by decide) (by decide) (by decide)).trans (by decide)⟩

/-- C6: if no chunk of the sequence contains the end sentinel, the extractor
never resolves — the promise stays pending (absence of termination, not a
crash). -/
theorem C6_no_end_never_resolves (chunks : List (List Char))
    (h : ∀ c ∈ chunks, includes c endSentinel = false) :
    (runChunks chunks).resolved = none := by
  unfold runChunks
  have main : ∀ (cs : List (List Char)) (st : ExtractorState),
      (∀ c ∈ cs, includes c endSentinel = false) → st.resolved = none →
      (cs.foldl onData st).resolved = none := by
    intro cs
    induction cs with
    | nil => intro st _ h0; simpa using h0
    | cons c cs ih =>
      intro st hcs h0
      rw [List.foldl_cons]
      exact ih (onData st c) (fun x hx => hcs x (List.mem_cons_of_mem c hx))
        (onData_noEnd st c h0 (hcs c (List.mem_cons_self c cs)))
  exact main chunks initState h rfl

/-- Witness for `C6_no_end_never_resolves` on the chunk sequence
`["RESULT_BEGIN", "abc"]`: the extractor stays pending. -/
theorem C6_no_end_never_resolves_witness :
    (∀ c ∈ ["RESULT_BEGIN".toList, "abc".toList], includes c endSentinel = false) ∧
    (runChunks ["RESULT_BEGIN".toList, "abc".toList]).resolved = none :=
  ⟨by decide, C6_no_end_never_resolves ["RESULT_BEGIN".toList, "abc".toList] (by decide)⟩

/-! ## Node `path` helpers used by the source

`callScript` uses `path.extname`, `path.dirname` and `path.resolve` from
Node's posix `path` module.  They are modelled here from Node's documented
posix behaviour.  `path.resolve` is only ever called by the source with an
absolute first argument (`process.cwd()` or `'/usr/project'`), so it is
modelled under that assumption. -/

/-- Split a character list on `'/'` separators (used to normalize paths). -/
def splitSlash (l : List Char) : List (List Char) :=
  match l with
  | [] => [[]]
  | c :: rest =>
    match splitSlash rest with
    | [] => [[]]
    | s :: ss => if c = '/' then [] :: s :: ss else (c :: s) :: ss

/-- Resolve `.` and `..` segments and drop empty segments, as Node's path
normalization does for an absolute path (`..` at the root is dropped). -/
def normSegs (acc : List (List Char)) : List (List Char) → List (List Char)
  | [] => acc.reverse
  | s :: rest =>
    if s = [] ∨ s = ['.'] then normSegs acc rest
    else if s = ['.', '.'] then normSegs acc.tail rest
    else normSegs (s :: acc) rest

/-- Join segments back with `'/'` separators. -/
def joinSlash : List (List Char) → List Char
  | [] => []
  | [s] => s
  | s :: rest => s ++ '/' :: joinSlash rest

/-- Node's normalization of an absolute posix path: leading `/`, no empty,
`.` or unresolved `..` segments, no trailing slash. -/
def normalizeAbs (p : String) : String :=
  ⟨'/' :: joinSlash (normSegs [] (splitSlash p.toList))⟩

/-- Node `path.isAbsolute` (posix): the path starts with `/`. -/
def isAbsolute (p : String) : Bool :=
  p.toList.head? == some '/'

/-- Node `path.resolve(base, p)` (posix) with `base` absolute, as in the
source where `base` is `process.cwd()` or `'/usr/project'`: an absolute `p`
is normalized on its own, a relative `p` is joined onto `base` first. -/
def resolve (base p : String) : String :=
  if isAbsolute p then normalizeAbs p else normalizeAbs (base ++ "/" ++ p)

/-- Node `path.dirname` (posix) on the path's character list: everything
before the last separator of the path with trailing separators stripped, with
the documented special cases for no separator (`.`), the root (`/`) and a
double-slash root (`//`).  `afterPart` is (reversed) the part of the path up
to and including that last separator; its length is the index the separator
has in the path. -/
def dirnameAux : List Char → String
  | [] => "."
  | c0 :: t =>
    let afterPart := (t.reverse.dropWhile (fun c => c == '/')).dropWhile (fun c => c != '/')
    if afterPart.length = 0 then (if c0 = '/' then "/" else ".")
    else if c0 = '/' ∧ afterPart.length = 1 then "//"
    else ⟨(c0 :: t).take afterPart.length⟩

/-- Node `path.dirname` (posix). -/
def dirname (p : String) : String := dirnameAux p.toList

/-- The basename of a path (last segment after stripping trailing slashes),
reversed — the portion of the path that Node `path.extname` examines. -/
def basenameRev (p : String) : List Char :=
  (p.toList.reverse.dropWhile (fun c => c == '/')).takeWhile (fun c => c != '/')

/-- The extension of a basename `b` whose last dot is followed by `tailLen`
characters: empty when the last dot is the basename's first character (hidden
files like `.bashrc`) or the basename is `..`, otherwise the suffix of `b`
starting at the last dot. -/
def extFromBasename (b : List Char) (tailLen : Nat) : String :=
  if b.length - 1 - tailLen = 0 then ""
  else if b = ['.', '.'] then ""
  else ⟨b.drop (b.length - 1 - tailLen)⟩

/-- Node `path.extname` (posix): the suffix of the basename from its last dot,
or the empty string when the basename has no dot usable as an extension
separator. -/
def extname (p : String) : String :=
  if '.' ∈ basenameRev p then
    extFromBasename (basenameRev p).reverse
      ((basenameRev p).takeWhile (fun c => c != '.')).length
  else ""

/-! ## Runtime table and command assembly (src/call-script.mjs:13-18, 61-149) -/

/-- The `DockerImage` union type of the source (src/call-script.mjs:52). -/
inductive DockerImage where
  | lldbDebugger
  | phpDebugger
  | pythonDebugger
deriving DecidableEq

/-- The string value of each `DockerImage` member. -/
def imageName : DockerImage → String
  | .lldbDebugger => "lldb-debugger"
  | .phpDebugger => "php-debugger"
  | .pythonDebugger => "python-debugger"

/-- A `DockerRunConfig` (src/call-script.mjs:56-58): just the image. -/
structure DockerRunConfig where
  image : DockerImage
deriving DecidableEq

/-- The fixed extension table `dockerRunConfigs` (src/call-script.mjs:61-74),
as an association list preserving the source's key order. -/
def dockerRunConfigs : List (String × DockerRunConfig) :=
  [(".c", ⟨DockerImage.lldbDebugger⟩),
   (".cpp", ⟨DockerImage.lldbDebugger⟩),
   (".php", ⟨DockerImage.phpDebugger⟩),
   (".py", ⟨DockerImage.pythonDebugger⟩)]

/-- The JS property lookup `dockerRunConfigs[fileExtension]`:
`none` models the `undefined` that makes `callScript` throw. -/
def lookupConfig (ext : String) : Option DockerRunConfig :=
  (dockerRunConfigs.find? (fun kv => kv.1 == ext)).map (fun kv => kv.2)

/-- `Object.keys(dockerRunConfigs).join('", "')`: the supported extensions as
they are interpolated into the unknown-extension error message. -/
def acceptedList : String :=
  String.intercalate "\", \"" (dockerRunConfigs.map (fun kv => kv.1))

/-- The message of the error thrown on an unsupported extension
(src/call-script.mjs:16). -/
def unknownExtensionMessage (ext : String) : String :=
  "Unknown extension \"" ++ ext ++ "\". Accepted: \"" ++ acceptedList ++ "\""

/-- A `DockerMount` (src/call-script.mjs:117-122); `type` defaults to `bind`
and `readOnly` to absent/false, as in the source's destructuring defaults. -/
structure DockerMount where
  type : String := "bind"
  source : String
  target : String
  readOnly : Bool := false
deriving DecidableEq

/-- JS `Array.prototype.join(',')` on a list of strings. -/
def joinComma : List String → String
  | [] => ""
  | [s] => s
  | s :: rest => s ++ "," ++ joinComma rest

/-- `toDockerMountArgs` (src/call-script.mjs:141-149): the `--mount` flag and
its comma-joined value; the `readOnly && 'readonly'` slot is a dropped-when-
falsy entry, modelled as an `Option` cleared by `filter(Boolean)`. -/
def toDockerMountArgs (m : DockerMount) : List String :=
  ["--mount",
   joinComma (([some ("type=" ++ m.type),
     some ("source=" ++ m.source),
     some ("target=" ++ m.target),
     if m.readOnly then some "readonly" else none]).filterMap id)]

namespace paths

/-- `paths.dockerRoot` (src/call-script.mjs:103). -/
def dockerRoot : String := "/usr/project"

/-- `paths.output(root)` (src/call-script.mjs:106). -/
def output (root : String) : String := resolve root "./out"

/-- `paths.nodeModules(root)` (src/call-script.mjs:107). -/
def nodeModules (root : String) : String := resolve root "./node_modules"

/-- `paths.vscodeLldb(root)` (src/call-script.mjs:111). -/
def vscodeLldb (root : String) : String := resolve root "./vscode-lldb"

/-- `paths.vscodePhpDebug(root)` (src/call-script.mjs:112). -/
def vscodePhpDebug (root : String) : String := resolve root "./vscode-php-debug"

end paths

/-- `mountsPerImage` (src/call-script.mjs:125-134); `selfRoot` is the value of
`paths.selfRoot = process.cwd()`. -/
def mountsPerImage (selfRoot : String) : DockerImage → List DockerMount
  | .lldbDebugger =>
    [{ source := paths.vscodeLldb selfRoot, target := paths.vscodeLldb paths.dockerRoot }]
  | .phpDebugger =>
    [{ source := paths.vscodePhpDebug selfRoot, target := paths.vscodePhpDebug paths.dockerRoot }]
  | .pythonDebugger => []

/-- The shared output-directory mount of `dockerRunCommand`
(src/call-script.mjs:93). -/
def outputMount (selfRoot : String) : DockerMount :=
  { source := paths.output selfRoot, target := paths.output paths.dockerRoot }

/-- The shared dependency-directory mount of `dockerRunCommand`
(src/call-script.mjs:94). -/
def nodeModulesMount (selfRoot : String) : DockerMount :=
  { source := paths.nodeModules selfRoot, target := paths.nodeModules paths.dockerRoot }

/-- The project-directory mount of `dockerRunCommand`
(src/call-script.mjs:84,95): the parent directory of the main file, resolved
against `process.cwd()` on the host side and against `paths.dockerRoot`
on the sandbox side. -/
def projectMount (selfRoot mainFilePath : String) : DockerMount :=
  { source := resolve selfRoot (dirname mainFilePath),
    target := resolve paths.dockerRoot (dirname mainFilePath) }

/-- `dockerRunCommand` (src/call-script.mjs:83-100): the `docker` command and
its argument list, with falsy (empty) tokens removed by `.filter(Boolean)`. -/
def dockerRunCommand (selfRoot : String) (docker : DockerRunConfig)
    (mainFilePath logLevel : String) : String × List String :=
  ("docker",
    (["run", "-it", "--rm", "--env", "LOG_LEVEL=" ++ logLevel]
      ++ (mountsPerImage selfRoot docker.image).flatMap toDockerMountArgs
      ++ toDockerMountArgs (outputMount selfRoot)
      ++ toDockerMountArgs (nodeModulesMount selfRoot)
      ++ toDockerMountArgs (projectMount selfRoot mainFilePath)
      ++ [imageName docker.image, mainFilePath]).filter (fun s => s != ""))

/-- The synchronous head of `callScript` (src/call-script.mjs:13-18): look the
extension up in the table; throw the unknown-extension error before anything
else if it is absent, otherwise assemble the docker run command that the
process launcher consumes. -/
def callScript (selfRoot mainFilePath logLevel : String) :
    Except String (String × List String) :=
  match lookupConfig (extname mainFilePath) with
  | none => Except.error (unknownExtensionMessage (extname mainFilePath))
  | some docker => Except.ok (dockerRunCommand selfRoot docker mainFilePath logLevel)

/-! ### Helper lemmas for the command assembler -/

/-- Appending to a non-empty string yields a non-empty string. -/
lemma strAppend_ne_empty (s t : String) (h : s ≠ "") : s ++ t ≠ "" := by
  obtain ⟨sd⟩ := s
  obtain ⟨td⟩ := t
  intro he
  have hd : sd ++ td = ([] : List Char) := congrArg String.data he
  exact h (by rw [(List.append_eq_nil.mp hd).1])

/-- A comma-join starting from a non-empty string is non-empty. -/
lemma joinComma_ne_empty (s : String) (rest : List String) (h : s ≠ "") :
    joinComma (s :: rest) ≠ "" := by
  cases rest with
  | nil => simpa [joinComma] using h
  | cons r rs =>
    show s ++ "," ++ joinComma (r :: rs) ≠ ""
    exact strAppend_ne_empty _ _ (strAppend_ne_empty _ _ h)

/-- Both tokens produced for a mount — the `--mount` flag and its value — are
non-empty, whatever the mount is. -/
lemma toDockerMountArgs_ne_empty (m : DockerMount) (a : String)
    (ha : a ∈ toDockerMountArgs m) : a ≠ "" := by
  simp only [toDockerMountArgs, List.mem_cons, List.not_mem_nil, or_false] at ha
  rcases ha with h1 | h1
  · subst h1; decide
  · subst h1
    have hfm : ([some ("type=" ++ m.type), some ("source=" ++ m.source),
        some ("target=" ++ m.target),
        if m.readOnly then some "readonly" else none]).filterMap id =
        ("type=" ++ m.type) :: ([some ("source=" ++ m.source),
          some ("target=" ++ m.target),
          if m.readOnly then some "readonly" else none]).filterMap id := by
      simp [List.filterMap_cons]
    rw [hfm]
    exact joinComma_ne_empty _ _ (strAppend_ne_empty _ _ (by decide))

/-- `filter(Boolean)` is the identity on a list of non-empty strings. -/
lemma filter_ne_empty_eq_self (l : List String) (h : ∀ a ∈ l, a ≠ "") :
    l.filter (fun s => s != "") = l := by
  induction l with
  | nil => rfl
  | cons a as ih =>
    rw [List.filter_cons, if_pos (bne_iff_ne.mpr (h a (List.mem_cons_self a as)))]
    rw [ih fun x hx => h x (List.mem_cons_of_mem a hx)]

/-- `dirnameAux` of a list starting with `/` yields an absolute path: all
three of its outcomes (`/`, `//`, a take of the list itself) start with `/`. -/
lemma dirnameAux_isAbsolute (t : List Char) :
    isAbsolute (dirnameAux ('/' :: t)) = true := by
  simp only [dirnameAux]
  by_cases h0 : ((t.reverse.dropWhile (fun c => c == '/')).dropWhile (fun c => c != '/')).length = 0
  · simp [h0, isAbsolute]
  · by_cases h1 : ((t.reverse.dropWhile (fun c => c == '/')).dropWhile (fun c => c != '/')).length = 1
    · simp [h0, h1, isAbsolute]
    · rcases Nat.exists_eq_succ_of_ne_zero h0 with ⟨n, hn⟩
      rw [if_neg h0, if_neg (by simp [h1])]
      rw [hn, List.take_succ_cons]
      rfl

/-- The parent directory of an absolute path is absolute. -/
lemma dirname_isAbsolute (p : String) (h : isAbsolute p = true) :
    isAbsolute (dirname p) = true := by
  rcases hp : p.toList with _ | ⟨c0, t⟩
  · rw [isAbsolute, hp] at h; simp at h
  · have hc0 : c0 = '/' := by
      rw [isAbsolute, hp] at h; simpa using h
    subst hc0
    rw [dirname, hp]
    exact dirnameAux_isAbsolute t

/-! ### Claim theorems about resolution, mounts and command assembly -/

/-- C3 (counterexample to the claim as stated): for the relative main-file
path `"foo/main.py"` with working directory `"/home/user"`, the
project-directory mount binds host `/home/user/foo` to sandbox
`/usr/project/foo` — source and target differ, because the source resolves
`projectPath` against `paths.selfRoot` on the host side but against
`paths.dockerRoot` on the sandbox side (src/call-script.mjs:95). -/
theorem C3_relative_path_counterexample :
    (projectMount "/home/user" "foo/main.py").source ≠
      (projectMount "/home/user" "foo/main.py").target := by
  decide

/-- C3 (amended): for every absolute main-file path, the project-directory
mount binds the resolved project directory at the identical absolute path
inside the sandbox — its source equals its target, whatever the working
directory is.  (For relative paths the two sides are resolved against
different roots and generally differ, per the counterexample.) -/
theorem C3_project_mount_path_identity (selfRoot mainFilePath : String)
    (h : isAbsolute mainFilePath = true) :
    (projectMount selfRoot mainFilePath).source =
      (projectMount selfRoot mainFilePath).target := by
  have hd := dirname_isAbsolute mainFilePath h
  simp [projectMount, resolve, hd]

/-- Witness for `C3_project_mount_path_identity` at the absolute path
`/tmp/proj/main.py` and working directory `/home/user`. -/
theorem C3_project_mount_path_identity_witness :
    isAbsolute "/tmp/proj/main.py" = true ∧
    (projectMount "/home/user" "/tmp/proj/main.py").source =
      (projectMount "/home/user" "/tmp/proj/main.py").target :=
  ⟨by decide, C3_project_mount_path_identity "/home/user" "/tmp/proj/main.py" (by decide)⟩

/-- C4: for every path whose extension is not one of `.c`, `.cpp`, `.php`,
`.py`, `callScript` fails with the unknown-extension error before any mount
planning or launch-plan assembly (the error branch precedes
`dockerRunCommand`, src/call-script.mjs:16-18), and the message's accepted
list enumerates exactly the supported extensions of the table, in order. -/
theorem C4_unsupported_extension_fails (selfRoot p logLevel : String)
    (h : extname p ∉ [".c", ".cpp", ".php", ".py"]) :
    callScript selfRoot p logLevel =
      Except.error (unknownExtensionMessage (extname p)) ∧
    acceptedList = ".c\", \".cpp\", \".php\", \".py" := by
  have hfind : dockerRunConfigs.find? (fun kv => kv.1 == extname p) = none := by
    rw [List.find?_eq_none]
    intro kv hkv
    have hne : kv.1 ≠ extname p := by
      simp only [dockerRunConfigs, List.mem_cons, List.not_mem_nil, or_false] at hkv
      rcases hkv with h1 | h1 | h1 | h1 <;>
        (subst h1; intro he; exact h (by rw [← he]; decide))
    simp [hne]
  have hnone : lookupConfig (extname p) = none := by
    rw [lookupConfig, hfind]; rfl
  exact ⟨by simp [callScript, hnone], rfl⟩

/-- Witness for `C4_unsupported_extension_fails` at `x.txt`. -/
theorem C4_unsupported_extension_fails_witness :
    extname "x.txt" ∉ [".c", ".cpp", ".php", ".py"] ∧
    (callScript "/self" "x.txt" "off" =
      Except.error (unknownExtensionMessage (extname "x.txt")) ∧
     acceptedList = ".c\", \".cpp\", \".php\", \".py") :=
  ⟨by decide, C4_unsupported_extension_fails "/self" "x.txt" "off" (by decide)⟩

/-- C7: mount-flag serialization.  A read-only mount of `/a` onto `/b`
serializes to the single `--mount` value
`type=bind,source=/a,target=/b,readonly`; a mount with `readOnly` left at its
absent/false default omits the `readonly` token entirely — the joined value
has exactly the three `type`/`source`/`target` segments and no empty
segment. -/
theorem C7_mount_serialization :
    toDockerMountArgs { source := "/a", target := "/b", readOnly := true } =
      ["--mount", "type=bind,source=/a,target=/b,readonly"] ∧
    toDockerMountArgs { source := "/a", target := "/b" } =
      ["--mount", "type=bind,source=/a,target=/b"] ∧
    ∀ s t : String, toDockerMountArgs { source := s, target := t } =
      ["--mount", joinComma ["type=bind", "source=" ++ s, "target=" ++ t]] := by
  refine ⟨by decide, by decide, fun s t => ?_⟩
  rfl

/-- C8: for every working directory, log level, and main-file path whose
extension is in the table, the assembled argument list is exactly: `run`, the
interactive and auto-remove flags, the single `--env LOG_LEVEL=<level>` pair,
the runtime-specific tool mounts, the output-directory mount, the
dependency-directory mount, the project-directory mount, the image name, and
the original main-file path as the final positional argument — the trailing
`.filter(Boolean)` removes nothing because no token is empty. -/
theorem C8_argv_structure (selfRoot logLevel p : String) (docker : DockerRunConfig)
    (h : lookupConfig (extname p) = some docker) :
    dockerRunCommand selfRoot docker p logLevel =
      ("docker",
        ["run", "-it", "--rm", "--env", "LOG_LEVEL=" ++ logLevel]
          ++ (mountsPerImage selfRoot docker.image).flatMap toDockerMountArgs
          ++ toDockerMountArgs (outputMount selfRoot)
          ++ toDockerMountArgs (nodeModulesMount selfRoot)
          ++ toDockerMountArgs (projectMount selfRoot p)
          ++ [imageName docker.image, p]) := by
  have hp : p ≠ "" := by
    intro hp
    subst hp
    rw [show extname "" = "" from rfl] at h
    simp [lookupConfig, dockerRunConfigs] at h
  rw [dockerRunCommand]
  refine congrArg (Prod.mk "docker") ?_
  apply filter_ne_empty_eq_self
  intro a ha
  rcases List.mem_append.mp ha with h1 | h1
  case inr =>
    rcases List.mem_cons.mp h1 with h2 | h2
    · subst h2
      obtain ⟨img⟩ := docker
      cases img <;> decide
    · have h3 : a = p := by simpa using h2
      subst h3; exact hp
  rcases List.mem_append.mp h1 with h2 | h2
  case inr => exact toDockerMountArgs_ne_empty _ a h2
  rcases List.mem_append.mp h2 with h3 | h3
  case inr => exact toDockerMountArgs_ne_empty _ a h3
  rcases List.mem_append.mp h3 with h4 | h4
  case inr => exact toDockerMountArgs_ne_empty _ a h4
  rcases List.mem_append.mp h4 with h5 | h5
  case inr =>
    rcases List.mem_flatMap.mp h5 with ⟨m, _, hm⟩
    exact toDockerMountArgs_ne_empty m a hm
  rcases List.mem_cons.mp h5 with h6 | h6
  · subst h6; decide
  rcases List.mem_cons.mp h6 with h7 | h7
  · subst h7; decide
  rcases List.mem_cons.mp h7 with h8 | h8
  · subst h8; decide
  rcases List.mem_cons.mp h8 with h9 | h9
  · subst h9; decide
  have h10 : a = "LOG_LEVEL=" ++ logLevel := by simpa using h9
  subst h10
  exact strAppend_ne_empty _ _ (by decide)

/-- Witness for `C8_argv_structure` on the python runtime (whose
runtime-specific mount list is empty) with path `a/b.py`. -/
theorem C8_argv_structure_witness :
    lookupConfig (extname "a/b.py") = some ⟨DockerImage.pythonDebugger⟩ ∧
    dockerRunCommand "/self" ⟨DockerImage.pythonDebugger⟩ "a/b.py" "debug" =
      ("docker",
        ["run", "-it", "--rm", "--env", "LOG_LEVEL=" ++ "debug"]
          ++ (mountsPerImage "/self" DockerImage.pythonDebugger).flatMap toDockerMountArgs
          ++ toDockerMountArgs (outputMount "/self")
          ++ toDockerMountArgs (nodeModulesMount "/self")
          ++ toDockerMountArgs (projectMount "/self" "a/b.py")
          ++ [imageName DockerImage.pythonDebugger, "a/b.py"]) :=
  ⟨by decide,
    C8_argv_structure "/self" "debug" "a/b.py" ⟨DockerImage.pythonDebugger⟩ (by decide)⟩

/-- C9: for every working directory, runtime descriptor (hence every mount
combination, including the python runtime's empty tool-mount list), main-file
path and log level, the assembled argument list contains no empty token:
`.filter(Boolean)` (src/call-script.mjs:98) guarantees it. -/
theorem C9_no_empty_token (selfRoot : String) (docker : DockerRunConfig)
    (mainFilePath logLevel : String) :
    "" ∉ (dockerRunCommand selfRoot docker mainFilePath logLevel).2 := by
  intro hmem
  rw [dockerRunCommand] at hmem
  have h2 := (List.mem_filter.mp hmem).2
  simp at h2

/-- C10: the extension used for the runtime lookup is `path.extname` of the
supplied path, so every main-file path containing no dot at all (`Makefile`,
a directory-like path, the empty string) has the empty extension, which is
not a key of the table, and `callScript` fails with the unknown-extension
error before doing anything else. -/
theorem C10_no_extension_fails (selfRoot p logLevel : String)
    (h : '.' ∉ p.toList) :
    extname p = "" ∧
    callScript selfRoot p logLevel = Except.error (unknownExtensionMessage "") := by
  have hb : '.' ∉ basenameRev p := by
    intro hmem
    exact h (List.mem_reverse.mp
      ((List.dropWhile_sublist _).subset ((List.takeWhile_sublist _).subset hmem)))
  have he : extname p = "" := by rw [extname, if_neg hb]
  refine ⟨he, ?_⟩
  have hnone : lookupConfig "" = none := by decide
  simp [callScript, he, hnone]

/-- Witness for `C10_no_extension_fails` at `Makefile`. -/
theorem C10_no_extension_fails_witness :
    '.' ∉ "Makefile".toList ∧
    (extname "Makefile" = "" ∧
     callScript "/self" "Makefile" "off" = Except.error (unknownExtensionMessage "")) :=
  ⟨by decide, C10_no_extension_fails "/self" "Makefile" "off" (by decide)⟩
